import Mathlib

/-!
Shallow embedding of the `injekt` dependency-injection engine
(`src/injekt/__init__.py`).

Modelling choices:
* Python classes are numbered (`Nat`); a `ClassTable` gives, for each class,
  its name, its strict superclasses (backing `issubclass`), its direct
  subclasses in definition order (backing `cls.__subclasses__()`), whether
  `inspect.isabstract` holds, the truth value of its instances (backing
  `bool(instance)`, i.e. `__bool__`), the way the `inject` decorator was
  applied to it, and its `__init__` parameter list (name and optional type
  hint), `self` excluded.
* Python objects are numbered (`Nat`) by an allocation counter; the global
  interpreter state `DIState` carries the module-level `_instances` dict,
  the allocation counter, the class of every allocated object, and a log of
  every invocation of an original (pre-decoration) `__init__` body together
  with the argument values it was called with.
* Python dicts are insertion-ordered association lists; `pyDictSet`
  overwrites in place or appends, `pyDictGet` looks up, matching dict
  semantics for `_instances` and for `kwargs`.
* Exceptions are modelled with `Except`; the state is returned alongside so
  that mutations performed before a raise survive it, as module-level
  globals do in Python.
* The mutual recursion between resolution and construction is broken with a
  fuel counter consumed by `get_or_create_instance`; `outOfFuel` is an
  artifact of the embedding, distinct from every Python exception.
-/

inductive DecorForm where
  | plain
  | classDecorated
  | initDecorated
deriving DecidableEq, Repr

structure PyClass where
  name : String
  ancestors : List Nat
  children : List Nat
  isAbstract : Bool
  truthy : Bool
  form : DecorForm
  params : List (String × Option Nat)

abbrev ClassTable := Nat → PyClass

/-- `issubclass(c, p)`: reflexive, or `p` among the strict ancestors of `c`. -/
def pyIssubclass (U : ClassTable) (c p : Nat) : Bool :=
  c == p || (U c).ancestors.contains p

inductive PyError where
  | unresolvableAbstract (name : String)
  | cantInstantiateAbstract (name : String)
  | missingArgument (name : String)
  | tooManyPositional
  | duplicateArgument (name : String)
  | unexpectedKeyword (name : String)
  | outOfFuel
deriving DecidableEq, Repr

structure DIState where
  instances : List (Nat × Nat)
  nextId : Nat
  objClass : List (Nat × Nat)
  initLog : List (Nat × List Nat)
deriving DecidableEq, Repr

/-- Insertion-ordered dict lookup. -/
def pyDictGet {κ α : Type} [DecidableEq κ] : List (κ × α) → κ → Option α
  | [], _ => none
  | (k, v) :: rest, key => if k = key then some v else pyDictGet rest key

/-- Insertion-ordered dict store: overwrite in place, else append. -/
def pyDictSet {κ α : Type} [DecidableEq κ] : List (κ × α) → κ → α → List (κ × α)
  | [], k, v => [(k, v)]
  | (k', v') :: rest, k, v =>
    if k' = k then (k, v) :: rest else (k', v') :: pyDictSet rest k v

/-- The instance values currently held by a registry. -/
def registryValues (d : List (Nat × Nat)) : List Nat := d.map Prod.snd

/-- `object.__new__(cls)`: allocate a fresh object of class `cls`, refusing
abstract classes (CPython raises `TypeError` there). -/
def object_new (U : ClassTable) (cls : Nat) (s : DIState) :
    Except PyError Nat × DIState :=
  if (U cls).isAbstract then
    (.error (.cantInstantiateAbstract (U cls).name), s)
  else
    (.ok s.nextId,
      { s with
        nextId := s.nextId + 1
        objClass := pyDictSet s.objClass s.nextId cls })

/-- `bool(instance)`: determined by the `__bool__` of the object's class. -/
def truthyInstance (U : ClassTable) (s : DIState) (i : Nat) : Bool :=
  match pyDictGet s.objClass i with
  | some c => (U c).truthy
  | none => true

/-- The `__new__` installed by `make_singleton`: return the registered
instance for `cls` if present, else allocate via the original `__new__`
and store the result in `_instances` keyed by `cls`. -/
def singleton_new (U : ClassTable) (cls : Nat) (s : DIState) :
    Except PyError Nat × DIState :=
  match pyDictGet s.instances cls with
  | some i => (.ok i, s)
  | none =>
    match object_new U cls s with
    | (.ok inst, s1) =>
      (.ok inst, { s1 with instances := pyDictSet s1.instances cls inst })
    | (.error e, s1) => (.error e, s1)

/-- `_find_subclass_instance`: first registry entry whose key is a strict
subclass of `p`; `none` otherwise. -/
def find_subclass_instance (U : ClassTable) (p : Nat) :
    List (Nat × Nat) → Option Nat
  | [] => none
  | (cls, inst) :: rest =>
    if pyIssubclass U cls p && cls != p then some inst
    else find_subclass_instance U p rest

/-- `_get_concrete_subclasses`: registry keys that are strict subclasses of
`p` (registry order), then the non-abstract direct subclasses of `p` not
already collected, in `__subclasses__()` order. -/
def get_concrete_subclasses (U : ClassTable) (p : Nat)
    (instances : List (Nat × Nat)) : List Nat :=
  let fromRegistry :=
    (instances.filter (fun e => pyIssubclass U e.1 p && e.1 != p)).map
      (fun e => e.1)
  (U p).children.foldl
    (fun acc cls =>
      if !(U cls).isAbstract && !acc.contains cls then acc ++ [cls] else acc)
    fromRegistry

/-- Python argument binding for an original `__init__` body with no
defaults: positional arguments fill the leading parameters, the remaining
parameters are taken from `kwargs`. -/
def bindArgsGo : List (String × Option Nat) → List Nat →
    List (String × Nat) → Except PyError (List Nat)
  | [], [], _ => .ok []
  | [], _ :: _, _ => .error .tooManyPositional
  | (nm, _) :: rest, a :: as, kwargs =>
    match pyDictGet kwargs nm with
    | some _ => .error (.duplicateArgument nm)
    | none =>
      match bindArgsGo rest as kwargs with
      | .ok bs => .ok (a :: bs)
      | .error e => .error e
  | (nm, _) :: rest, [], kwargs =>
    match pyDictGet kwargs nm with
    | some v =>
      match bindArgsGo rest [] kwargs with
      | .ok bs => .ok (v :: bs)
      | .error e => .error e
    | none => .error (.missingArgument nm)

/-- Full binding: reject keyword arguments naming no parameter, then bind. -/
def bindArgs (params : List (String × Option Nat)) (args : List Nat)
    (kwargs : List (String × Nat)) : Except PyError (List Nat) :=
  match kwargs.find? (fun kv => !(params.any (fun pr => pr.1 == kv.1))) with
  | some kv => .error (.unexpectedKeyword kv.1)
  | none => bindArgsGo params args kwargs

/-- Run an original (pre-decoration) `__init__` body: bind the arguments
and record the invocation in the log. -/
def run_original_init (U : ClassTable) (cls : Nat) (args : List Nat)
    (kwargs : List (String × Nat)) (s : DIState) :
    Except PyError Unit × DIState :=
  match bindArgs (U cls).params args kwargs with
  | .ok bound => (.ok (), { s with initLog := s.initLog ++ [(cls, bound)] })
  | .error e => (.error e, s)

/-- A resolver: what `_get_or_create_instance` provides to the loop of
`inject_dependencies` (closed over the recursion fuel). -/
abbrev Resolver := Nat → DIState → Except PyError Nat × DIState

/-- The parameter loop of `inject_dependencies`: walking the parameters in
declaration order with their index, skip any parameter occupied by a
positional argument or already present in `kwargs`, skip parameters with no
type hint, and otherwise store the resolved instance into `kwargs`. -/
def fill_params (U : ClassTable) (resolveF : Resolver) :
    List (String × Option Nat) → Nat → List Nat → List (String × Nat) →
    DIState → Except PyError (List (String × Nat)) × DIState
  | [], _, _, kwargs, s => (.ok kwargs, s)
  | (nm, hint) :: rest, i, args, kwargs, s =>
    if i < args.length || (pyDictGet kwargs nm).isSome then
      fill_params U resolveF rest (i + 1) args kwargs s
    else
      match hint with
      | none => fill_params U resolveF rest (i + 1) args kwargs s
      | some t =>
        match resolveF t s with
        | (.ok inst, s1) =>
          fill_params U resolveF rest (i + 1) args (pyDictSet kwargs nm inst) s1
        | (.error e, s1) => (.error e, s1)

/-- `inject_dependencies(original_init, self, *args, **kwargs)`: fill the
missing annotated parameters, then call the original `__init__`. -/
def inject_dependencies (U : ClassTable) (resolveF : Resolver) (cls : Nat)
    (args : List Nat) (kwargs : List (String × Nat)) (s : DIState) :
    Except PyError Unit × DIState :=
  match fill_params U resolveF (U cls).params 0 args kwargs s with
  | (.ok kwargs2, s1) => run_original_init U cls args kwargs2 s1
  | (.error e, s1) => (.error e, s1)

/-- `cls(*args, **kwargs)` (`type.__call__`) for a class in each decoration
state: `__new__` first (the singleton `__new__` when the class decorator was
used, the plain allocator otherwise), then `__init__` (the injecting wrapper
when either decorator form was used, the original body otherwise). -/
def call_class (U : ClassTable) (resolveF : Resolver) (cls : Nat)
    (args : List Nat) (kwargs : List (String × Nat)) (s : DIState) :
    Except PyError Nat × DIState :=
  match (U cls).form with
  | .classDecorated =>
    match singleton_new U cls s with
    | (.ok obj, s1) =>
      match inject_dependencies U resolveF cls args kwargs s1 with
      | (.ok _, s2) => (.ok obj, s2)
      | (.error e, s2) => (.error e, s2)
    | (.error e, s1) => (.error e, s1)
  | .initDecorated =>
    match object_new U cls s with
    | (.ok obj, s1) =>
      match inject_dependencies U resolveF cls args kwargs s1 with
      | (.ok _, s2) => (.ok obj, s2)
      | (.error e, s2) => (.error e, s2)
    | (.error e, s1) => (.error e, s1)
  | .plain =>
    match object_new U cls s with
    | (.ok obj, s1) =>
      match run_original_init U cls args kwargs s1 with
      | (.ok _, s2) => (.ok obj, s2)
      | (.error e, s2) => (.error e, s2)
    | (.error e, s1) => (.error e, s1)

/-- `_create_and_register_instance`: `instance = cls()`, then
`_instances[cls] = instance`. -/
def create_and_register_instance (U : ClassTable) (resolveF : Resolver)
    (cls : Nat) (s : DIState) : Except PyError Nat × DIState :=
  match call_class U resolveF cls [] [] s with
  | (.ok inst, s1) =>
    (.ok inst, { s1 with instances := pyDictSet s1.instances cls inst })
  | (.error e, s1) => (.error e, s1)

/-- The tail of `_get_or_create_instance` after the exact-hit and
subclass-instance checks: if `param_type.__subclasses__()` is non-empty,
instantiate the first concrete subclass or raise; otherwise instantiate
`param_type` itself. -/
def resolve_fallback (U : ClassTable) (resolveF : Resolver) (p : Nat)
    (s : DIState) : Except PyError Nat × DIState :=
  match (U p).children with
  | [] => create_and_register_instance U resolveF p s
  | _ :: _ =>
    match get_concrete_subclasses U p s.instances with
    | [] => (.error (.unresolvableAbstract (U p).name), s)
    | c :: _ => create_and_register_instance U resolveF c s

/-- `_get_or_create_instance`, with fuel for the recursion through nested
construction: exact registry hit, then subclass-instance check (the code
tests the truthiness of the found instance, not its presence), then the
fallback. -/
def get_or_create_instance (U : ClassTable) :
    Nat → Nat → DIState → Except PyError Nat × DIState
  | 0, _, s => (.error .outOfFuel, s)
  | fuel + 1, p, s =>
    match pyDictGet s.instances p with
    | some i => (.ok i, s)
    | none =>
      match find_subclass_instance U p s.instances with
      | some inst =>
        if truthyInstance U s inst then (.ok inst, s)
        else resolve_fallback U (get_or_create_instance U fuel) p s
      | none => resolve_fallback U (get_or_create_instance U fuel) p s

/-- A top-level construction request `cls(*args, **kwargs)`. -/
def construct (U : ClassTable) (fuel : Nat) (cls : Nat) (args : List Nat)
    (kwargs : List (String × Nat)) (s : DIState) :
    Except PyError Nat × DIState :=
  call_class U (get_or_create_instance U fuel) cls args kwargs s

/-- `reset()`: `_instances.clear()`. Only the registry is touched. -/
def reset (s : DIState) : DIState := { s with instances := [] }

/-- The five-rule resolution cascade exactly as claim C3 words it: (1) exact
registry hit; (2) reuse of a registered strict-subtype instance; (3) if `P`
has subclasses, construct the first concrete implementer; (4) if `P` has
subclasses but none concrete, fail naming `P`; (5) if `P` has no subclasses,
construct `P` directly and register it.  Rule 3/5 construct through the
singleton construction wrapper, which recursively resolves with the code's
resolver at the remaining fuel. -/
def resolution_policy_spec (U : ClassTable) :
    Nat → Nat → DIState → Except PyError Nat × DIState
  | 0, _, s => (.error .outOfFuel, s)
  | fuel + 1, p, s =>
    match pyDictGet s.instances p with
    | some i => (.ok i, s)
    | none =>
      match find_subclass_instance U p s.instances with
      | some inst => (.ok inst, s)
      | none =>
        match (U p).children with
        | [] => create_and_register_instance U (get_or_create_instance U fuel) p s
        | _ :: _ =>
          match get_concrete_subclasses U p s.instances with
          | [] => (.error (.unresolvableAbstract (U p).name), s)
          | c :: _ =>
            create_and_register_instance U (get_or_create_instance U fuel) c s

/-- The cascade of `resolution_policy_spec` amended in exactly one place:
rule (2) reuses the found registered strict-subtype instance only when that
instance is truthy; a falsy one is skipped and the later rules apply. -/
def resolution_policy_amended (U : ClassTable) :
    Nat → Nat → DIState → Except PyError Nat × DIState
  | 0, _, s => (.error .outOfFuel, s)
  | fuel + 1, p, s =>
    match pyDictGet s.instances p with
    | some i => (.ok i, s)
    | none =>
      match find_subclass_instance U p s.instances with
      | some inst =>
        if truthyInstance U s inst then (.ok inst, s)
        else
          match (U p).children with
          | [] =>
            create_and_register_instance U (get_or_create_instance U fuel) p s
          | _ :: _ =>
            match get_concrete_subclasses U p s.instances with
            | [] => (.error (.unresolvableAbstract (U p).name), s)
            | c :: _ =>
              create_and_register_instance U (get_or_create_instance U fuel) c s
      | none =>
        match (U p).children with
        | [] =>
          create_and_register_instance U (get_or_create_instance U fuel) p s
        | _ :: _ =>
          match get_concrete_subclasses U p s.instances with
          | [] => (.error (.unresolvableAbstract (U p).name), s)
          | c :: _ =>
            create_and_register_instance U (get_or_create_instance U fuel) c s

/-- A class with none of the decorators and nothing special. -/
def defaultPyClass : PyClass :=
  { name := "object", ancestors := [], children := [], isAbstract := false,
    truthy := true, form := DecorForm.plain, params := [] }

/-- Universe with a single `@inject`-decorated class `A` (id 0), no
dependencies. -/
def U1 : ClassTable := fun c =>
  if c = 0 then
    { name := "A", ancestors := [], children := [], isAbstract := false,
      truthy := true, form := DecorForm.classDecorated, params := [] }
  else defaultPyClass

/-- Universe with class `P` (id 0) and its concrete direct subclass `C`
(id 1) whose instances are falsy (`__bool__` returns `False`). -/
def U6 : ClassTable := fun c =>
  if c = 0 then
    { name := "P", ancestors := [], children := [1], isAbstract := false,
      truthy := true, form := DecorForm.plain, params := [] }
  else if c = 1 then
    { name := "C", ancestors := [0], children := [], isAbstract := false,
      truthy := false, form := DecorForm.plain, params := [] }
  else defaultPyClass

/-- Universe with abstract `P` (id 0) whose only declared subclass `Q`
(id 1) is itself abstract. -/
def Uabs : ClassTable := fun c =>
  if c = 0 then
    { name := "P", ancestors := [], children := [1], isAbstract := true,
      truthy := true, form := DecorForm.plain, params := [] }
  else if c = 1 then
    { name := "Q", ancestors := [0], children := [], isAbstract := true,
      truthy := true, form := DecorForm.plain, params := [] }
  else defaultPyClass

/-- Universe with `Service` (id 0, `@inject` on the class, one annotated
parameter `dependency : Dependency`) and `Dependency` (id 1, `@inject`). -/
def USvc : ClassTable := fun c =>
  if c = 0 then
    { name := "Service", ancestors := [], children := [], isAbstract := false,
      truthy := true, form := DecorForm.classDecorated,
      params := [("dependency", some 1)] }
  else if c = 1 then
    { name := "Dependency", ancestors := [], children := [],
      isAbstract := false, truthy := true, form := DecorForm.classDecorated,
      params := [] }
  else defaultPyClass

/-- Universe with plain `Database` (id 0) and its `@inject`-decorated
concrete subclass `BQDatabase` (id 1). -/
def Usub : ClassTable := fun c =>
  if c = 0 then
    { name := "Database", ancestors := [], children := [1],
      isAbstract := false, truthy := true, form := DecorForm.plain,
      params := [] }
  else if c = 1 then
    { name := "BQDatabase", ancestors := [0], children := [],
      isAbstract := false, truthy := true, form := DecorForm.classDecorated,
      params := [] }
  else defaultPyClass

/-- Universe with a single plain (never decorated) class `Helper` (id 0). -/
def U9 : ClassTable := fun c =>
  if c = 0 then
    { name := "Helper", ancestors := [], children := [], isAbstract := false,
      truthy := true, form := DecorForm.plain, params := [] }
  else defaultPyClass

/-- Universe with a single class `W` (id 0) whose `__init__` method carries
the decorator (method form), the class itself undecorated. -/
def U10 : ClassTable := fun c =>
  if c = 0 then
    { name := "W", ancestors := [], children := [], isAbstract := false,
      truthy := true, form := DecorForm.initDecorated, params := [] }
  else defaultPyClass

/-! ## The step invariant

`StepOK U s s1` collects the facts every operation of the engine preserves:
the allocation counter is monotone, a registry entry keyed by a
class-decorated class is never replaced, every registry value is either an
old one or a fresh allocation of this step, and the init log only grows. -/

structure StepOK (U : ClassTable) (s s1 : DIState) : Prop where
  mono : s.nextId ≤ s1.nextId
  keep : ∀ k i, (U k).form = DecorForm.classDecorated →
    pyDictGet s.instances k = some i → pyDictGet s1.instances k = some i
  vals : ∀ v, v ∈ registryValues s1.instances →
    v ∈ registryValues s.instances ∨ (s.nextId ≤ v ∧ v < s1.nextId)
  logExt : ∃ t, s1.initLog = s.initLog ++ t

theorem stepOK_refl (U : ClassTable) (s : DIState) : StepOK U s s :=
  ⟨le_refl _, fun _ _ _ h => h, fun _ hv => Or.inl hv,
    ⟨[], (List.append_nil _).symm⟩⟩

theorem stepOK_trans {U : ClassTable} {s t u : DIState}
    (h1 : StepOK U s t) (h2 : StepOK U t u) : StepOK U s u := by
  refine ⟨le_trans h1.mono h2.mono, ?_, ?_, ?_⟩
  · intro k i hf hg
    exact h2.keep k i hf (h1.keep k i hf hg)
  · intro v hv
    rcases h2.vals v hv with hv1 | ⟨hl, hr⟩
    · rcases h1.vals v hv1 with hv2 | ⟨hl2, hr2⟩
      · exact Or.inl hv2
      · exact Or.inr ⟨hl2, lt_of_lt_of_le hr2 h2.mono⟩
    · exact Or.inr ⟨le_trans h1.mono hl, hr⟩
  · obtain ⟨t1, ht1⟩ := h1.logExt
    obtain ⟨t2, ht2⟩ := h2.logExt
    exact ⟨t1 ++ t2, by rw [ht2, ht1, List.append_assoc]⟩

theorem stepOK_of_same_instances {U : ClassTable} {s s1 : DIState}
    (hinst : s1.instances = s.instances) (hn : s.nextId ≤ s1.nextId)
    (hlog : ∃ t, s1.initLog = s.initLog ++ t) : StepOK U s s1 :=
  ⟨hn, fun k i _ h => by rw [hinst]; exact h,
    fun v hv => Or.inl (by rw [hinst] at hv; exact hv), hlog⟩

/-- The contract a resolver must satisfy for the invariant to pass through
`inject_dependencies`: every call is a `StepOK` step and every returned
instance is an old registry value or a fresh allocation of the call. -/
def ResolverOK (U : ClassTable) (f : Resolver) : Prop :=
  ∀ p s, StepOK U s (f p s).2 ∧
    ∀ i, (f p s).1 = .ok i →
      i ∈ registryValues s.instances ∨ (s.nextId ≤ i ∧ i < (f p s).2.nextId)


/-! ## Dictionary lemmas -/

theorem pyDictGet_pyDictSet_self {κ α : Type} [DecidableEq κ]
    (d : List (κ × α)) (k : κ) (v : α) :
    pyDictGet (pyDictSet d k v) k = some v := by
  induction d with
  | nil => simp [pyDictSet, pyDictGet]
  | cons e rest ih =>
    obtain ⟨k', v'⟩ := e
    by_cases h : k' = k
    · simp [pyDictSet, h, pyDictGet]
    · simp [pyDictSet, h, pyDictGet, ih]

theorem pyDictGet_pyDictSet_ne {κ α : Type} [DecidableEq κ]
    (d : List (κ × α)) {k k' : κ} (v : α) (h : k' ≠ k) :
    pyDictGet (pyDictSet d k v) k' = pyDictGet d k' := by
  induction d with
  | nil => simp [pyDictSet, pyDictGet, Ne.symm h]
  | cons e rest ih =>
    obtain ⟨k0, v0⟩ := e
    by_cases h0 : k0 = k
    · subst h0
      simp [pyDictSet, pyDictGet, Ne.symm h]
    · simp [pyDictSet, h0, pyDictGet, ih]

theorem mem_values_of_pyDictGet {d : List (Nat × Nat)} {k v : Nat}
    (h : pyDictGet d k = some v) : v ∈ registryValues d := by
  induction d with
  | nil => simp [pyDictGet] at h
  | cons e rest ih =>
    obtain ⟨k0, v0⟩ := e
    by_cases h0 : k0 = k
    · subst h0
      simp [pyDictGet] at h
      subst h
      simp [registryValues]
    · simp [pyDictGet, h0] at h
      have := ih h
      simp [registryValues] at this ⊢
      exact Or.inr this

theorem mem_values_pyDictSet {d : List (Nat × Nat)} {k v x : Nat}
    (h : x ∈ registryValues (pyDictSet d k v)) :
    x = v ∨ x ∈ registryValues d := by
  induction d with
  | nil =>
    simp [pyDictSet, registryValues] at h
    exact Or.inl h
  | cons e rest ih =>
    obtain ⟨k0, v0⟩ := e
    by_cases h0 : k0 = k
    · subst h0
      simp [pyDictSet, registryValues] at h ⊢
      tauto
    · simp [pyDictSet, h0, registryValues] at h ⊢
      rcases h with h | h
      · exact Or.inr (Or.inl h)
      · rcases ih (by simpa [registryValues] using h) with h' | h'
        · exact Or.inl h'
        · exact Or.inr (Or.inr (by simpa [registryValues] using h'))


/-! ## Step lemmas for the primitive operations -/

theorem object_new_ok {U : ClassTable} {cls : Nat} {s : DIState} {i : Nat}
    {s1 : DIState} (h : object_new U cls s = (.ok i, s1)) :
    i = s.nextId ∧ s1.nextId = s.nextId + 1 ∧ s1.instances = s.instances ∧
      s1.initLog = s.initLog := by
  unfold object_new at h
  split at h
  · simp at h
  · simp only [Prod.mk.injEq, Except.ok.injEq] at h
    obtain ⟨hi, hs⟩ := h
    subst hs
    exact ⟨hi.symm, rfl, rfl, rfl⟩

theorem object_new_stepOK (U : ClassTable) (cls : Nat) (s : DIState) :
    StepOK U s (object_new U cls s).2 := by
  unfold object_new
  split
  · exact stepOK_refl U s
  · exact stepOK_of_same_instances rfl (Nat.le_succ _)
      ⟨[], (List.append_nil _).symm⟩

theorem singleton_new_hit {U : ClassTable} {cls : Nat} {s : DIState} {i : Nat}
    (h : pyDictGet s.instances cls = some i) :
    singleton_new U cls s = (.ok i, s) := by
  unfold singleton_new
  rw [h]

theorem singleton_new_ok {U : ClassTable} {cls : Nat} {s : DIState} {i : Nat}
    {s1 : DIState} (h : singleton_new U cls s = (.ok i, s1)) :
    pyDictGet s1.instances cls = some i ∧
      (i ∈ registryValues s.instances ∨ (s.nextId ≤ i ∧ i < s1.nextId)) ∧
      StepOK U s s1 := by
  unfold singleton_new at h
  split at h
  next j hget =>
    simp only [Prod.mk.injEq, Except.ok.injEq] at h
    obtain ⟨hj, hs⟩ := h
    subst hj
    subst hs
    exact ⟨hget, Or.inl (mem_values_of_pyDictGet hget), stepOK_refl U s⟩
  next hget =>
    split at h
    next inst s2 heq =>
      obtain ⟨hi, hn, hinst, hlog⟩ := object_new_ok heq
      simp only [Prod.mk.injEq, Except.ok.injEq] at h
      obtain ⟨hj, hs⟩ := h
      subst hj
      subst hs
      refine ⟨by simpa using pyDictGet_pyDictSet_self s2.instances cls inst, ?_, ?_⟩
      · subst hi
        exact Or.inr ⟨le_refl _, by simp [hn]⟩
      · refine ⟨by simp [hn], ?_, ?_, ⟨[], by simp [hlog]⟩⟩
        · intro k j hfm hg
          by_cases hk : k = cls
          · subst hk
            rw [hget] at hg
            cases hg
          · simp only
            rw [pyDictGet_pyDictSet_ne _ _ hk, hinst]
            exact hg
        · intro v hv
          rcases mem_values_pyDictSet (by simpa using hv) with rfl | hv'
          · subst hi
            exact Or.inr ⟨le_refl _, by simp [hn]⟩
          · rw [hinst] at hv'
            exact Or.inl hv'
    next e s2 heq =>
      simp at h

theorem singleton_new_stepOK (U : ClassTable) (cls : Nat) (s : DIState) :
    StepOK U s (singleton_new U cls s).2 := by
  unfold singleton_new
  split
  next j hget => exact stepOK_refl U s
  next hget =>
    split
    next inst s2 heq =>
      obtain ⟨hi, hn, hinst, hlog⟩ := object_new_ok heq
      refine ⟨by simp [hn], ?_, ?_, ⟨[], by simp [hlog]⟩⟩
      · intro k j hfm hg
        by_cases hk : k = cls
        · subst hk
          rw [hget] at hg
          cases hg
        · simp only
          rw [pyDictGet_pyDictSet_ne _ _ hk, hinst]
          exact hg
      · intro v hv
        rcases mem_values_pyDictSet (by simpa using hv) with rfl | hv'
        · subst hi
          exact Or.inr ⟨le_refl _, by simp [hn]⟩
        · rw [hinst] at hv'
          exact Or.inl hv'
    next e s2 heq =>
      have h1 := object_new_stepOK U cls s
      rw [heq] at h1
      exact h1

theorem run_original_init_stepOK (U : ClassTable) (cls : Nat) (args : List Nat)
    (kwargs : List (String × Nat)) (s : DIState) :
    StepOK U s (run_original_init U cls args kwargs s).2 := by
  unfold run_original_init
  split
  next bound heq =>
    exact stepOK_of_same_instances rfl (le_refl _) ⟨[(cls, bound)], rfl⟩
  next e heq => exact stepOK_refl U s

theorem find_subclass_mem_values {U : ClassTable} {p : Nat}
    {d : List (Nat × Nat)} {i : Nat} (h : find_subclass_instance U p d = some i) :
    i ∈ registryValues d := by
  induction d with
  | nil => simp [find_subclass_instance] at h
  | cons e rest ih =>
    obtain ⟨cls, inst⟩ := e
    unfold find_subclass_instance at h
    split at h
    · cases h
      simp [registryValues]
    · have := ih h
      simp [registryValues] at this ⊢
      exact Or.inr this

theorem fill_params_stepOK {U : ClassTable} {f : Resolver}
    (hf : ResolverOK U f) :
    ∀ (params : List (String × Option Nat)) (i : Nat) (args : List Nat)
      (kwargs : List (String × Nat)) (s : DIState),
      StepOK U s (fill_params U f params i args kwargs s).2 := by
  intro params
  induction params with
  | nil =>
    intro i args kwargs s
    exact stepOK_refl U s
  | cons pr rest ih =>
    intro i args kwargs s
    obtain ⟨nm, hint⟩ := pr
    unfold fill_params
    split
    · exact ih _ _ _ _
    · match hint with
      | none => exact ih _ _ _ _
      | some t =>
        simp only
        split
        next inst s1 heq =>
          have h1 := (hf t s).1
          rw [heq] at h1
          exact stepOK_trans h1 (ih _ _ _ _)
        next e s1 heq =>
          have h1 := (hf t s).1
          rw [heq] at h1
          exact h1

theorem inject_dependencies_stepOK {U : ClassTable} {f : Resolver}
    (hf : ResolverOK U f) (cls : Nat) (args : List Nat)
    (kwargs : List (String × Nat)) (s : DIState) :
    StepOK U s (inject_dependencies U f cls args kwargs s).2 := by
  unfold inject_dependencies
  split
  next kwargs2 s1 heq =>
    have h1 := fill_params_stepOK hf (U cls).params 0 args kwargs s
    rw [heq] at h1
    exact stepOK_trans h1 (run_original_init_stepOK U cls args kwargs2 s1)
  next e s1 heq =>
    have h1 := fill_params_stepOK hf (U cls).params 0 args kwargs s
    rw [heq] at h1
    exact h1

theorem call_class_stepOK {U : ClassTable} {f : Resolver}
    (hf : ResolverOK U f) (cls : Nat) (args : List Nat)
    (kwargs : List (String × Nat)) (s : DIState) :
    StepOK U s (call_class U f cls args kwargs s).2 := by
  unfold call_class
  split
  · -- classDecorated
    split
    next obj s1 heq1 =>
      have h1 := (singleton_new_ok heq1).2.2
      have h2 := inject_dependencies_stepOK hf cls args kwargs s1
      split
      next u s2 heq2 =>
        rw [heq2] at h2
        exact stepOK_trans h1 h2
      next e s2 heq2 =>
        rw [heq2] at h2
        exact stepOK_trans h1 h2
    next e s1 heq1 =>
      have h1 := singleton_new_stepOK U cls s
      rw [heq1] at h1
      exact h1
  · -- initDecorated
    split
    next obj s1 heq1 =>
      have h1 := object_new_stepOK U cls s
      rw [heq1] at h1
      have h2 := inject_dependencies_stepOK hf cls args kwargs s1
      split
      next u s2 heq2 =>
        rw [heq2] at h2
        exact stepOK_trans h1 h2
      next e s2 heq2 =>
        rw [heq2] at h2
        exact stepOK_trans h1 h2
    next e s1 heq1 =>
      have h1 := object_new_stepOK U cls s
      rw [heq1] at h1
      exact h1
  · -- plain
    split
    next obj s1 heq1 =>
      have h1 := object_new_stepOK U cls s
      rw [heq1] at h1
      have h2 := run_original_init_stepOK U cls args kwargs s1
      split
      next u s2 heq2 =>
        rw [heq2] at h2
        exact stepOK_trans h1 h2
      next e s2 heq2 =>
        rw [heq2] at h2
        exact stepOK_trans h1 h2
    next e s1 heq1 =>
      have h1 := object_new_stepOK U cls s
      rw [heq1] at h1
      exact h1


theorem pair_eq_of_fst {A B : Type} {x : A × B} {a : A} (h : x.1 = a) :
    x = (a, x.2) := by
  obtain ⟨x1, x2⟩ := x
  simp at h
  simp [h]

theorem call_class_decorated {U : ClassTable} {f : Resolver} {cls : Nat}
    {args : List Nat} {kwargs : List (String × Nat)} {s : DIState}
    (hform : (U cls).form = DecorForm.classDecorated) :
    call_class U f cls args kwargs s =
      (match singleton_new U cls s with
      | (.ok obj, s1) =>
        match inject_dependencies U f cls args kwargs s1 with
        | (.ok _, s2) => (.ok obj, s2)
        | (.error e, s2) => (.error e, s2)
      | (.error e, s1) => (.error e, s1)) := by
  unfold call_class
  rw [hform]

theorem call_class_init_decorated {U : ClassTable} {f : Resolver} {cls : Nat}
    {args : List Nat} {kwargs : List (String × Nat)} {s : DIState}
    (hform : (U cls).form = DecorForm.initDecorated) :
    call_class U f cls args kwargs s =
      (match object_new U cls s with
      | (.ok obj, s1) =>
        match inject_dependencies U f cls args kwargs s1 with
        | (.ok _, s2) => (.ok obj, s2)
        | (.error e, s2) => (.error e, s2)
      | (.error e, s1) => (.error e, s1)) := by
  unfold call_class
  rw [hform]

theorem call_class_plain {U : ClassTable} {f : Resolver} {cls : Nat}
    {args : List Nat} {kwargs : List (String × Nat)} {s : DIState}
    (hform : (U cls).form = DecorForm.plain) :
    call_class U f cls args kwargs s =
      (match object_new U cls s with
      | (.ok obj, s1) =>
        match run_original_init U cls args kwargs s1 with
        | (.ok _, s2) => (.ok obj, s2)
        | (.error e, s2) => (.error e, s2)
      | (.error e, s1) => (.error e, s1)) := by
  unfold call_class
  rw [hform]

theorem call_class_hit {U : ClassTable} {f : Resolver} {cls : Nat}
    {args : List Nat} {kwargs : List (String × Nat)} {s : DIState}
    {i j : Nat} {s2 : DIState} (hform : (U cls).form = DecorForm.classDecorated)
    (hget : pyDictGet s.instances cls = some i)
    (h : call_class U f cls args kwargs s = (.ok j, s2)) : j = i := by
  rw [call_class_decorated hform, singleton_new_hit hget] at h
  split at h
  · rename_i inst s1 heq
    simp only [Prod.mk.injEq, Except.ok.injEq] at heq
    obtain ⟨hinst, hs1⟩ := heq
    subst hinst
    subst hs1
    split at h
    · simp only [Prod.mk.injEq, Except.ok.injEq] at h
      exact h.1.symm
    · simp at h
  · rename_i e s1 heq
    simp at heq

theorem call_class_origin {U : ClassTable} {f : Resolver}
    (hf : ResolverOK U f) {cls : Nat} {args : List Nat}
    {kwargs : List (String × Nat)} {s : DIState} {i : Nat} {s2 : DIState}
    (h : call_class U f cls args kwargs s = (.ok i, s2)) :
    i ∈ registryValues s.instances ∨ (s.nextId ≤ i ∧ i < s2.nextId) := by
  have hstep := call_class_stepOK hf cls args kwargs s
  rw [h] at hstep
  rcases hform : (U cls).form with hp | hd | hi0
  · rw [call_class_plain hform] at h
    split at h
    next obj s1 heq1 =>
      obtain ⟨hio, hn, _, _⟩ := object_new_ok heq1
      split at h
      next u s2' heq2 =>
        simp only [Prod.mk.injEq, Except.ok.injEq] at h
        obtain ⟨hobj, hs⟩ := h
        subst hobj
        subst hs
        have h2 := run_original_init_stepOK U cls args kwargs s1
        rw [heq2] at h2
        subst hio
        exact Or.inr ⟨le_refl _, lt_of_lt_of_le (by simp [hn]) h2.mono⟩
      next e s2' heq2 => simp at h
    next e s1 heq1 => simp at h
  · rw [call_class_decorated hform] at h
    split at h
    next obj s1 heq1 =>
      obtain ⟨hreg, horig, hstep1⟩ := singleton_new_ok heq1
      split at h
      next u s2' heq2 =>
        simp only [Prod.mk.injEq, Except.ok.injEq] at h
        obtain ⟨hobj, hs⟩ := h
        subst hobj
        subst hs
        have h2 := inject_dependencies_stepOK hf cls args kwargs s1
        rw [heq2] at h2
        rcases horig with hm | ⟨hl, hr⟩
        · exact Or.inl hm
        · exact Or.inr ⟨hl, lt_of_lt_of_le hr h2.mono⟩
      next e s2' heq2 => simp at h
    next e s1 heq1 => simp at h
  · rw [call_class_init_decorated hform] at h
    split at h
    next obj s1 heq1 =>
      obtain ⟨hio, hn, _, _⟩ := object_new_ok heq1
      split at h
      next u s2' heq2 =>
        simp only [Prod.mk.injEq, Except.ok.injEq] at h
        obtain ⟨hobj, hs⟩ := h
        subst hobj
        subst hs
        have h2 := inject_dependencies_stepOK hf cls args kwargs s1
        rw [heq2] at h2
        subst hio
        exact Or.inr ⟨le_refl _, lt_of_lt_of_le (by simp [hn]) h2.mono⟩
      next e s2' heq2 => simp at h
    next e s1 heq1 => simp at h

theorem call_class_registers {U : ClassTable} {f : Resolver}
    (hf : ResolverOK U f) {cls : Nat} {args : List Nat}
    {kwargs : List (String × Nat)} {s : DIState} {i : Nat} {s2 : DIState}
    (hform : (U cls).form = DecorForm.classDecorated)
    (h : call_class U f cls args kwargs s = (.ok i, s2)) :
    pyDictGet s2.instances cls = some i := by
  rw [call_class_decorated hform] at h
  split at h
  next obj s1 heq1 =>
    obtain ⟨hreg, _, _⟩ := singleton_new_ok heq1
    split at h
    next u s2' heq2 =>
      simp only [Prod.mk.injEq, Except.ok.injEq] at h
      obtain ⟨hobj, hs⟩ := h
      subst hobj
      subst hs
      have h2 := inject_dependencies_stepOK hf cls args kwargs s1
      rw [heq2] at h2
      exact h2.keep cls _ hform hreg
    next e s2' heq2 => simp at h
  next e s1 heq1 => simp at h

theorem create_and_register_registers {U : ClassTable} {f : Resolver}
    {cls : Nat} {s : DIState} {i : Nat} {s1 : DIState}
    (h : create_and_register_instance U f cls s = (.ok i, s1)) :
    pyDictGet s1.instances cls = some i := by
  unfold create_and_register_instance at h
  split at h
  next inst s2 heq =>
    simp only [Prod.mk.injEq, Except.ok.injEq] at h
    obtain ⟨hinst, hs⟩ := h
    subst hinst
    subst hs
    exact pyDictGet_pyDictSet_self s2.instances cls _
  next e s2 heq => simp at h

theorem create_and_register_stepOK {U : ClassTable} {f : Resolver}
    (hf : ResolverOK U f) (cls : Nat) (s : DIState) :
    StepOK U s (create_and_register_instance U f cls s).2 := by
  unfold create_and_register_instance
  split
  next inst s1 heq =>
    have hstep := call_class_stepOK hf cls [] [] s
    rw [heq] at hstep
    refine ⟨hstep.mono, ?_, ?_, hstep.logExt⟩
    · intro k i hfm hg
      by_cases hk : k = cls
      · subst hk
        have hii : inst = i := call_class_hit hfm hg heq
        rw [hii]
        exact pyDictGet_pyDictSet_self s1.instances k i
      · show pyDictGet (pyDictSet s1.instances cls inst) k = some i
        rw [pyDictGet_pyDictSet_ne _ _ hk]
        exact hstep.keep k i hfm hg
    · intro v hv
      rcases mem_values_pyDictSet (by simpa using hv) with rfl | hv'
      · have horig := call_class_origin hf heq
        exact horig
      · exact hstep.vals v hv'
  next e s1 heq =>
    have hstep := call_class_stepOK hf cls [] [] s
    rw [heq] at hstep
    exact hstep

theorem create_and_register_origin {U : ClassTable} {f : Resolver}
    (hf : ResolverOK U f) {cls : Nat} {s : DIState} {i : Nat} {s1 : DIState}
    (h : create_and_register_instance U f cls s = (.ok i, s1)) :
    i ∈ registryValues s.instances ∨ (s.nextId ≤ i ∧ i < s1.nextId) := by
  unfold create_and_register_instance at h
  split at h
  next inst s2 heq =>
    simp only [Prod.mk.injEq, Except.ok.injEq] at h
    obtain ⟨hinst, hs⟩ := h
    subst hinst
    have horig := call_class_origin hf heq
    rw [← hs]
    exact horig
  next e s2 heq => simp at h

theorem resolve_fallback_stepOK {U : ClassTable} {f : Resolver}
    (hf : ResolverOK U f) (p : Nat) (s : DIState) :
    StepOK U s (resolve_fallback U f p s).2 := by
  unfold resolve_fallback
  split
  · exact create_and_register_stepOK hf p s
  · split
    · exact stepOK_refl U s
    · exact create_and_register_stepOK hf _ s

theorem resolve_fallback_origin {U : ClassTable} {f : Resolver}
    (hf : ResolverOK U f) {p : Nat} {s : DIState} {i : Nat} {s1 : DIState}
    (h : resolve_fallback U f p s = (.ok i, s1)) :
    i ∈ registryValues s.instances ∨ (s.nextId ≤ i ∧ i < s1.nextId) := by
  unfold resolve_fallback at h
  split at h
  · exact create_and_register_origin hf h
  · split at h
    · simp at h
    · exact create_and_register_origin hf h

/-- The main invariant: every `_get_or_create_instance` call, at any fuel,
is a `StepOK` step whose returned instance is an old registry value or a
fresh allocation of the call. -/
theorem get_or_create_resolverOK (U : ClassTable) :
    ∀ fuel, ResolverOK U (get_or_create_instance U fuel) := by
  intro fuel
  induction fuel with
  | zero =>
    intro p s
    refine ⟨stepOK_refl U s, ?_⟩
    intro i h
    simp [get_or_create_instance] at h
  | succ n ih =>
    intro p s
    unfold get_or_create_instance
    split
    next i hget =>
      exact ⟨stepOK_refl U s, fun j hj => by
        cases hj
        exact Or.inl (mem_values_of_pyDictGet hget)⟩
    next hget =>
      split
      next inst hfind =>
        split
        · exact ⟨stepOK_refl U s, fun j hj => by
            cases hj
            exact Or.inl (find_subclass_mem_values hfind)⟩
        · refine ⟨resolve_fallback_stepOK ih p s, ?_⟩
          intro j hj
          exact resolve_fallback_origin ih (pair_eq_of_fst hj)
      next hfind =>
        refine ⟨resolve_fallback_stepOK ih p s, ?_⟩
        intro j hj
        exact resolve_fallback_origin ih (pair_eq_of_fst hj)

/-! ## Auxiliary lemmas about the implementer set, binding, and kwargs -/

theorem foldl_dedup_extends (U : ClassTable) :
    ∀ (l : List Nat) (acc : List Nat), ∃ t,
      l.foldl (fun acc cls =>
        if !(U cls).isAbstract && !acc.contains cls then acc ++ [cls]
        else acc) acc = acc ++ t := by
  intro l
  induction l with
  | nil => intro acc; exact ⟨[], (List.append_nil _).symm⟩
  | cons c rest ih =>
    intro acc
    simp only [List.foldl_cons]
    by_cases h : (!(U c).isAbstract && !acc.contains c) = true
    · rw [if_pos h]
      obtain ⟨t, ht⟩ := ih (acc ++ [c])
      exact ⟨[c] ++ t, by rw [ht, List.append_assoc]⟩
    · rw [if_neg h]
      exact ih acc

theorem fromRegistry_nil_of_concrete_nil {U : ClassTable} {p : Nat}
    {d : List (Nat × Nat)} (h : get_concrete_subclasses U p d = []) :
    d.filter (fun e => pyIssubclass U e.1 p && e.1 != p) = [] := by
  unfold get_concrete_subclasses at h
  obtain ⟨t, ht⟩ := foldl_dedup_extends U (U p).children
    ((d.filter (fun e => pyIssubclass U e.1 p && e.1 != p)).map (fun e => e.1))
  simp only at h
  rw [ht] at h
  have hmap := (List.append_eq_nil.mp h).1
  exact List.map_eq_nil_iff.mp hmap

theorem find_subclass_none_of_filter_nil {U : ClassTable} {p : Nat} :
    ∀ d : List (Nat × Nat),
      d.filter (fun e => pyIssubclass U e.1 p && e.1 != p) = [] →
      find_subclass_instance U p d = none := by
  intro d
  induction d with
  | nil => intro _; rfl
  | cons e rest ih =>
    intro h
    obtain ⟨cls, inst⟩ := e
    rw [List.filter_cons] at h
    split at h
    · cases h
    · rename_i hcond
      unfold find_subclass_instance
      simp only at hcond
      rw [if_neg (by simpa using hcond)]
      exact ih h

theorem filter_nil_of_find_subclass_none {U : ClassTable} {p : Nat} :
    ∀ d : List (Nat × Nat),
      find_subclass_instance U p d = none →
      d.filter (fun e => pyIssubclass U e.1 p && e.1 != p) = [] := by
  intro d
  induction d with
  | nil => intro _; rfl
  | cons e rest ih =>
    intro h
    obtain ⟨cls, inst⟩ := e
    unfold find_subclass_instance at h
    split at h
    · cases h
    · rename_i hcond
      rw [List.filter_cons, if_neg (by simpa using hcond)]
      exact ih h

theorem concrete_of_find_none {U : ClassTable} {p : Nat}
    {d : List (Nat × Nat)} (h : find_subclass_instance U p d = none) :
    get_concrete_subclasses U p d =
      (U p).children.foldl (fun acc cls =>
        if !(U cls).isAbstract && !acc.contains cls then acc ++ [cls]
        else acc) [] := by
  unfold get_concrete_subclasses
  simp only
  rw [filter_nil_of_find_subclass_none d h]
  rfl

theorem bindArgs_ok {params : List (String × Option Nat)} {args : List Nat}
    {kwargs : List (String × Nat)} {bound : List Nat}
    (h : bindArgs params args kwargs = .ok bound) :
    bindArgsGo params args kwargs = .ok bound := by
  unfold bindArgs at h
  split at h
  · cases h
  · exact h

theorem bindArgsGo_bound :
    ∀ (params : List (String × Option Nat)) (args : List Nat)
      (kwargs : List (String × Nat)) (bound : List Nat),
      bindArgsGo params args kwargs = .ok bound →
      (∀ idx, idx < args.length → bound.get? idx = args.get? idx) ∧
      (∀ idx nm h0, args.length ≤ idx → params.get? idx = some (nm, h0) →
        bound.get? idx = pyDictGet kwargs nm) := by
  intro params
  induction params with
  | nil =>
    intro args kwargs bound h
    match args with
    | [] =>
      simp only [bindArgsGo, Except.ok.injEq] at h
      subst h
      constructor
      · intro idx hidx
        simp at hidx
      · intro idx nm h0 _ hp
        simp at hp
    | a :: as => simp [bindArgsGo] at h
  | cons pr rest ih =>
    intro args kwargs bound h
    obtain ⟨nm0, hint0⟩ := pr
    match args with
    | a :: as =>
      unfold bindArgsGo at h
      split at h
      · cases h
      · rename_i hkw
        split at h
        · rename_i bs heq
          simp only [Except.ok.injEq] at h
          subst h
          obtain ⟨ihpos, ihkw⟩ := ih as kwargs bs heq
          constructor
          · intro idx hidx
            match idx with
            | 0 => rfl
            | idx + 1 => exact ihpos idx (by simpa using hidx)
          · intro idx nm h0 hge hp
            match idx with
            | 0 => simp at hge
            | idx + 1 =>
              exact ihkw idx nm h0 (by simpa using hge) (by simpa using hp)
        · cases h
    | [] =>
      unfold bindArgsGo at h
      split at h
      · rename_i v0 hkw
        split at h
        · rename_i bs heq
          simp only [Except.ok.injEq] at h
          subst h
          obtain ⟨ihpos, ihkw⟩ := ih [] kwargs bs heq
          constructor
          · intro idx hidx
            simp at hidx
          · intro idx nm h0 hge hp
            match idx with
            | 0 =>
              simp only [List.get?] at hp
              simp only [Option.some.injEq, Prod.mk.injEq] at hp
              obtain ⟨hnm, _⟩ := hp
              subst hnm
              simp [hkw]
            | idx + 1 =>
              exact ihkw idx nm h0 (by simp) (by simpa using hp)
        · cases h
      · cases h

theorem fill_params_kw_keep {U : ClassTable} {f : Resolver} {name : String}
    {v : Nat} :
    ∀ (params : List (String × Option Nat)) (i : Nat) (args : List Nat)
      (kwargs : List (String × Nat)) (s : DIState)
      (kwargs2 : List (String × Nat)) (s1 : DIState),
      fill_params U f params i args kwargs s = (.ok kwargs2, s1) →
      pyDictGet kwargs name = some v → pyDictGet kwargs2 name = some v := by
  intro params
  induction params with
  | nil =>
    intro i args kwargs s kwargs2 s1 h hv
    simp only [fill_params, Prod.mk.injEq, Except.ok.injEq] at h
    rw [← h.1]
    exact hv
  | cons pr rest ih =>
    intro i args kwargs s kwargs2 s1 h hv
    obtain ⟨nm, hint⟩ := pr
    unfold fill_params at h
    split at h
    · exact ih _ _ _ _ _ _ h hv
    · rename_i hcond
      match hint with
      | none => exact ih _ _ _ _ _ _ h hv
      | some t =>
        simp only at h
        split at h
        · rename_i inst s0 heq
          have hne : nm ≠ name := by
            intro he
            subst he
            rw [hv] at hcond
            simp at hcond
          exact ih _ _ _ _ _ _ h
            (by rw [pyDictGet_pyDictSet_ne _ _ (Ne.symm hne)]; exact hv)
        · cases h

theorem inject_dependencies_ok {U : ClassTable} {f : Resolver} {cls : Nat}
    {args : List Nat} {kwargs : List (String × Nat)} {s : DIState} {u : Unit}
    {s2 : DIState}
    (h : inject_dependencies U f cls args kwargs s = (.ok u, s2)) :
    ∃ kwargs2 s1 bound,
      fill_params U f (U cls).params 0 args kwargs s = (.ok kwargs2, s1) ∧
      bindArgs (U cls).params args kwargs2 = .ok bound ∧
      s2 = { s1 with initLog := s1.initLog ++ [(cls, bound)] } := by
  unfold inject_dependencies at h
  split at h
  next kwargs2 s1 heq =>
    unfold run_original_init at h
    split at h
    next bound heqb =>
      simp only [Prod.mk.injEq] at h
      exact ⟨kwargs2, s1, bound, heq, heqb, h.2.symm⟩
    next e heqb => simp at h
  next e s1 heq => simp at h

theorem singleton_new_miss_ok {U : ClassTable} {cls : Nat} {s : DIState}
    {i : Nat} {s1 : DIState} (hmiss : pyDictGet s.instances cls = none)
    (h : singleton_new U cls s = (.ok i, s1)) : i = s.nextId := by
  unfold singleton_new at h
  rw [hmiss] at h
  split at h
  · rename_i i0 heqn
    simp at heqn
  · split at h
    · rename_i inst s0 heqn
      obtain ⟨hi, _, _, _⟩ := object_new_ok heqn
      simp only [Prod.mk.injEq, Except.ok.injEq] at h
      rw [← h.1, hi]
    · rename_i e s0 heqn
      simp at h

theorem call_class_decorated_miss_obj {U : ClassTable} {f : Resolver}
    {cls : Nat} {args : List Nat} {kwargs : List (String × Nat)}
    {s : DIState} {j : Nat} {s2 : DIState}
    (hform : (U cls).form = DecorForm.classDecorated)
    (hmiss : pyDictGet s.instances cls = none)
    (h : call_class U f cls args kwargs s = (.ok j, s2)) : j = s.nextId := by
  rw [call_class_decorated hform] at h
  split at h
  · rename_i obj s1 heq1
    have hobj := singleton_new_miss_ok hmiss heq1
    split at h
    · simp only [Prod.mk.injEq, Except.ok.injEq] at h
      rw [← h.1, hobj]
    · simp at h
  · rename_i e s1 heq1
    simp at h

theorem call_class_init_obj {U : ClassTable} {f : Resolver} {cls : Nat}
    {args : List Nat} {kwargs : List (String × Nat)} {s : DIState} {j : Nat}
    {s2 : DIState} (hform : (U cls).form = DecorForm.initDecorated)
    (h : call_class U f cls args kwargs s = (.ok j, s2)) : j = s.nextId := by
  rw [call_class_init_decorated hform] at h
  split at h
  · rename_i obj s1 heq1
    obtain ⟨hi, _, _, _⟩ := object_new_ok heq1
    split at h
    · simp only [Prod.mk.injEq, Except.ok.injEq] at h
      rw [← h.1, hi]
    · simp at h
  · rename_i e s1 heq1
    simp at h

/-! ## Claim theorems -/

/-- Claim C1: for a class `T` decorated with `@inject` (so made a singleton),
with no instance yet registered for `T`, two construction requests for `T`
with no explicit arguments return the identical instance: the first request
stores its result in the registry keyed by `T`, and the second request
returns that same stored object rather than a newly allocated one. -/
theorem C1_singleton_identity {U : ClassTable} {f g T i j : Nat}
    {s s1 s2 : DIState}
    (hform : (U T).form = DecorForm.classDecorated)
    (hmiss : pyDictGet s.instances T = none)
    (h1 : construct U f T [] [] s = (.ok i, s1))
    (h2 : construct U g T [] [] s1 = (.ok j, s2)) :
    pyDictGet s1.instances T = some i ∧ j = i ∧ i = s.nextId := by
  have hreg : pyDictGet s1.instances T = some i :=
    call_class_registers (get_or_create_resolverOK U f) hform h1
  exact ⟨hreg, call_class_hit hform hreg h2,
    call_class_decorated_miss_obj hform hmiss h1⟩

/-- Witness for C1 at the one-class universe `U1`: two argument-free
construction requests for class `A` both return object `0`, which the first
request left registered under `A`. -/
theorem C1_singleton_identity_witness :
    pyDictGet (DIState.mk [(0, 0)] 1 [(0, 0)] [(0, [])]).instances 0 =
      some 0 ∧ (0 : Nat) = 0 ∧ (0 : Nat) = 0 := by
  have h1 : construct U1 1 0 [] [] (DIState.mk [] 0 [] []) =
      (.ok 0, DIState.mk [(0, 0)] 1 [(0, 0)] [(0, [])]) := by rfl
  have h2 : construct U1 1 0 [] [] (DIState.mk [(0, 0)] 1 [(0, 0)] [(0, [])]) =
      (.ok 0, DIState.mk [(0, 0)] 1 [(0, 0)] [(0, []), (0, [])]) := by rfl
  exact C1_singleton_identity (by rfl) (by rfl) h1 h2

/-- Claim C2 counterexample: in the one-class universe `U1` (class `A`
decorated with `@inject`, empty `__init__` parameter list), two successive
construction requests both return the same cached instance `0`, yet the
original `__init__` body of `A` runs on both requests: after the second
request the init log holds two entries for `A`, refuting "the original
`__init__` body is invoked exactly once per registry lifetime".  The cause:
`make_singleton` patches only `__new__`; `type.__call__` still invokes the
patched `__init__` on the cached instance on every call. -/
theorem C2_counterexample :
    construct U1 1 0 [] [] (DIState.mk [] 0 [] []) =
      (.ok 0, DIState.mk [(0, 0)] 1 [(0, 0)] [(0, [])]) ∧
    construct U1 1 0 [] [] (DIState.mk [(0, 0)] 1 [(0, 0)] [(0, [])]) =
      (.ok 0, DIState.mk [(0, 0)] 1 [(0, 0)] [(0, []), (0, [])]) ∧
    (DIState.mk [(0, 0)] 1 [(0, 0)] [(0, []), (0, [])]).initLog =
      [(0, []), (0, [])] :=
  ⟨rfl, rfl, rfl⟩

/-- Claim C2 (amended): only the first construction request for a decorated
`T` allocates; every subsequent successful construction request returns the
cached instance — but it does re-run the original `__init__` body (with
freshly resolved dependencies) rather than short-circuiting: the init log
gains a new trailing entry for `T` on every request. -/
theorem C2_reinitialization {U : ClassTable} {f T i j : Nat}
    {s s2 : DIState} (hform : (U T).form = DecorForm.classDecorated)
    (hreg : pyDictGet s.instances T = some i)
    (h : construct U f T [] [] s = (.ok j, s2)) :
    j = i ∧ ∃ l b, s2.initLog = l ++ [(T, b)] ∧
      s.initLog.length ≤ l.length := by
  refine ⟨call_class_hit hform hreg h, ?_⟩
  unfold construct at h
  rw [call_class_decorated hform, singleton_new_hit hreg] at h
  split at h
  · rename_i obj s1 heq
    simp only [Prod.mk.injEq, Except.ok.injEq] at heq
    obtain ⟨hio, hs1⟩ := heq
    subst hio
    subst hs1
    split at h
    · rename_i u s2' heq2
      simp only [Prod.mk.injEq, Except.ok.injEq] at h
      obtain ⟨hij, hs2⟩ := h
      obtain ⟨kwargs2, s1', bound, hfill, hbind, hslog⟩ :=
        inject_dependencies_ok heq2
      subst hs2
      refine ⟨s1'.initLog, bound, by rw [hslog], ?_⟩
      have hstep := fill_params_stepOK (get_or_create_resolverOK U f)
        (U T).params 0 [] [] s
      rw [hfill] at hstep
      obtain ⟨t, ht⟩ := hstep.logExt
      rw [ht]
      simp
    · simp at h
  · rename_i e s1 heq
    simp at heq

/-- Witness for the amended C2 at `U1`: with `A` already registered holding
instance `0`, a construction request returns `0` and appends a fresh
init-log entry for `A`. -/
theorem C2_reinitialization_witness :
    (0 : Nat) = 0 ∧ ∃ l b,
      (DIState.mk [(0, 0)] 1 [(0, 0)] [(0, []), (0, [])]).initLog =
        l ++ [(0, b)] ∧
      (DIState.mk [(0, 0)] 1 [(0, 0)] [(0, [])]).initLog.length ≤
        l.length := by
  have h : construct U1 1 0 [] [] (DIState.mk [(0, 0)] 1 [(0, 0)] [(0, [])]) =
      (.ok 0, DIState.mk [(0, 0)] 1 [(0, 0)] [(0, []), (0, [])]) := by rfl
  exact C2_reinitialization (by rfl) (by rfl) h

/-- Claim C3 counterexample: with `P` (id 0), its concrete direct subclass
`C` (id 1) whose instances are falsy, and a registered `C` instance `100`,
the code does not take rule (2) even though it yields a result: the
specification cascade returns the registered instance `100`, the code
manufactures and returns a fresh instance instead. -/
theorem C3_counterexample :
    get_or_create_instance U6 2 0 (DIState.mk [(1, 100)] 101 [(100, 1)] []) ≠
      resolution_policy_spec U6 2 0
        (DIState.mk [(1, 100)] 101 [(100, 1)] []) := by
  intro h
  have h1 : get_or_create_instance U6 2 0
      (DIState.mk [(1, 100)] 101 [(100, 1)] []) =
      (.ok 101, DIState.mk [(1, 101)] 102 [(100, 1), (101, 1)] [(1, [])]) := by
    rfl
  have h2 : resolution_policy_spec U6 2 0
      (DIState.mk [(1, 100)] 101 [(100, 1)] []) =
      (.ok 100, DIState.mk [(1, 100)] 101 [(100, 1)] []) := by rfl
  rw [h1, h2] at h
  simp at h

/-- Claim C3 (amended): `_get_or_create_instance` applies exactly the five
rules of the cascade in strict priority order, with rule (2) amended to
reuse the found registered strict-subtype instance only when that instance
is truthy (a falsy one is skipped, the later rules applying); and the
allocator refuses to instantiate an abstract class, so no rule silently
instantiates one. -/
theorem C3_resolution_policy (U : ClassTable) :
    (∀ fuel p s, get_or_create_instance U fuel p s =
      resolution_policy_amended U fuel p s) ∧
    (∀ cls s, (U cls).isAbstract = true →
      object_new U cls s =
        (.error (.cantInstantiateAbstract (U cls).name), s)) := by
  constructor
  · intro fuel p s
    match fuel with
    | 0 => rfl
    | n + 1 =>
      simp only [get_or_create_instance, resolution_policy_amended,
        resolve_fallback]
  · intro cls s habs
    unfold object_new
    rw [if_pos habs]

/-- Witness for the amended C3: the cascade equality evaluated at the falsy
counterexample input, and the allocator refusing the abstract class `P` of
`Uabs`. -/
theorem C3_resolution_policy_witness :
    get_or_create_instance U6 2 0 (DIState.mk [(1, 100)] 101 [(100, 1)] []) =
      resolution_policy_amended U6 2 0
        (DIState.mk [(1, 100)] 101 [(100, 1)] []) ∧
    ((Uabs 0).isAbstract = true ∧
      object_new Uabs 0 (DIState.mk [] 0 [] []) =
        (.error (.cantInstantiateAbstract "P"), DIState.mk [] 0 [] [])) :=
  ⟨(C3_resolution_policy U6).1 2 0 (DIState.mk [(1, 100)] 101 [(100, 1)] []),
    rfl, (C3_resolution_policy Uabs).2 0 (DIState.mk [] 0 [] []) rfl⟩

/-- Claim C4: when the required type `P` has declared subclasses but no
concrete implementer (and rules 1-2 do not fire: no exact registry entry —
absence of strict-subtype registry entries already follows from the empty
implementer set), resolution raises the single resolution-specific error,
naming `P`, and returns with the state — in particular the registry —
unchanged, never attempting direct instantiation of `P`. -/
theorem C4_abstract_without_implementer {U : ClassTable} {f p : Nat}
    {s : DIState} (hch : (U p).children ≠ [])
    (hconc : get_concrete_subclasses U p s.instances = [])
    (hmiss : pyDictGet s.instances p = none) :
    get_or_create_instance U (f + 1) p s =
      (.error (.unresolvableAbstract (U p).name), s) := by
  have hfind := find_subclass_none_of_filter_nil s.instances
    (fromRegistry_nil_of_concrete_nil hconc)
  unfold get_or_create_instance resolve_fallback
  rw [hmiss, hfind]
  cases hc : (U p).children with
  | nil => exact absurd hc hch
  | cons c cs => rw [hconc]

/-- Witness for C4 at `Uabs`: abstract `P` with only the abstract subclass
`Q` makes resolution fail with the error naming `P`, the state untouched. -/
theorem C4_abstract_without_implementer_witness :
    ((Uabs 0).children ≠ [] ∧
      get_concrete_subclasses Uabs 0 [] = [] ∧
      pyDictGet (DIState.mk [] 0 [] []).instances 0 = none) ∧
    get_or_create_instance Uabs 1 0 (DIState.mk [] 0 [] []) =
      (.error (.unresolvableAbstract "P"), DIState.mk [] 0 [] []) := by
  refine ⟨⟨by simp [Uabs, defaultPyClass], rfl, rfl⟩, ?_⟩
  exact C4_abstract_without_implementer (by simp [Uabs, defaultPyClass])
    rfl rfl

/-- Claim C5: a constructor parameter supplied by the caller — positionally
(the argument list covers its position) or by name — is skipped by
injection: the caller's value is the one bound to that parameter when the
original `__init__` runs, and the supplied instance is never placed in the
registry (assuming it was not a registry value already); manually supplied
and injected parameters coexist in the same call. -/
theorem C5_manual_override {U : ClassTable} {f cls v j : Nat} {nm : String}
    {hint : Option Nat} {pre post : List (String × Option Nat)}
    {args : List Nat} {kwargs : List (String × Nat)} {s s2 : DIState}
    (hform : (U cls).form = DecorForm.classDecorated)
    (hparams : (U cls).params = pre ++ (nm, hint) :: post)
    (hsupplied : args.get? pre.length = some v ∨
      (args.length ≤ pre.length ∧ pyDictGet kwargs nm = some v))
    (hfresh : v < s.nextId)
    (hnotin : v ∉ registryValues s.instances)
    (h : construct U f cls args kwargs s = (.ok j, s2)) :
    (∃ l bound, s2.initLog = l ++ [(cls, bound)] ∧
      bound.get? pre.length = some v) ∧
    v ∉ registryValues s2.instances := by
  constructor
  · unfold construct at h
    rw [call_class_decorated hform] at h
    split at h
    · rename_i obj s1 heq1
      split at h
      · rename_i u s2' heq2
        simp only [Prod.mk.injEq, Except.ok.injEq] at h
        obtain ⟨hobj, hs2⟩ := h
        subst hs2
        obtain ⟨kwargs2, s1', bound, hfill, hbind, hslog⟩ :=
          inject_dependencies_ok heq2
        refine ⟨s1'.initLog, bound, by rw [hslog], ?_⟩
        have hgo := bindArgsGo_bound (U cls).params args kwargs2 bound
          (bindArgs_ok hbind)
        rcases hsupplied with hpos | ⟨hle, hkw⟩
        · have hlt : pre.length < args.length := by
            rw [List.get?_eq_getElem?] at hpos
            exact (List.getElem?_eq_some_iff.mp hpos).1
          rw [hgo.1 pre.length hlt]
          exact hpos
        · have hp : (U cls).params.get? pre.length = some (nm, hint) := by
            rw [hparams, List.get?_eq_getElem?,
              List.getElem?_append_right (le_refl pre.length)]
            simp
          have hkw2 : pyDictGet kwargs2 nm = some v :=
            fill_params_kw_keep (U cls).params 0 args kwargs s1 kwargs2 s1'
              hfill hkw
          rw [hgo.2 pre.length nm hint hle hp]
          exact hkw2
      · simp at h
    · rename_i e s1 heq1
      simp at h
  · have h' : call_class U (get_or_create_instance U f) cls args kwargs s =
        (.ok j, s2) := h
    have hstep := call_class_stepOK (get_or_create_resolverOK U f)
      cls args kwargs s
    rw [h'] at hstep
    intro hmem
    rcases hstep.vals v hmem with hold | ⟨hge, _⟩
    · exact hnotin hold
    · exact absurd hfresh (not_lt.mpr hge)

/-- Witness for C5 at `USvc`: `Service(dependency=obj 100)` binds the
caller's object `100` to `dependency` in the original `__init__` and leaves
`100` out of the registry. -/
theorem C5_manual_override_witness :
    ((USvc 0).params = [] ++ ("dependency", some 1) :: [] ∧
      pyDictGet [("dependency", 100)] "dependency" = some 100 ∧
      (100 : Nat) < 101) ∧
    ((∃ l bound,
        (DIState.mk [(0, 101)] 102 [(100, 1), (101, 0)] [(0, [100])]).initLog =
          l ++ [(0, bound)] ∧
        bound.get? ([] : List (String × Option Nat)).length = some 100) ∧
      100 ∉ registryValues
        (DIState.mk [(0, 101)] 102 [(100, 1), (101, 0)] [(0, [100])]).instances) := by
  refine ⟨⟨rfl, rfl, by decide⟩, ?_⟩
  have h : construct USvc 1 0 [] [("dependency", 100)]
      (DIState.mk [] 101 [(100, 1)] []) =
      (.ok 101, DIState.mk [(0, 101)] 102 [(100, 1), (101, 0)] [(0, [100])]) := by
    rfl
  have hp : (USvc 0).params = [] ++ ("dependency", some 1) :: [] := rfl
  have hs : ([] : List Nat).get?
        ([] : List (String × Option Nat)).length = some 100 ∨
      (([] : List Nat).length ≤ ([] : List (String × Option Nat)).length ∧
        pyDictGet [("dependency", 100)] "dependency" = some 100) :=
    Or.inr ⟨by decide, rfl⟩
  exact C5_manual_override rfl hp hs (by decide) (by simp [registryValues]) h

/-- Claim C6 (code bug): with `P` (id 0), concrete subclass `C` (id 1)
whose instances are falsy, and the `C` instance `100` registered, a
registered strict-subtype instance for `P` exists and the spec requires
returning it — but `_get_or_create_instance` tests the instance's
truthiness instead of its presence (`if subclass_instance:` where the
helper's documented not-found sentinel is `None`), skips it, constructs a
fresh `C` instance `101` through rule 3, and overwrites the registry entry
for `C`. -/
theorem C6_falsy_subtype_bug :
    find_subclass_instance U6 0 [(1, 100)] = some 100 ∧
    get_or_create_instance U6 2 0 (DIState.mk [(1, 100)] 101 [(100, 1)] []) =
      (.ok 101,
        DIState.mk [(1, 101)] 102 [(100, 1), (101, 1)] [(1, [])]) ∧
    (101 : Nat) ≠ 100 :=
  ⟨rfl, rfl, by decide⟩

/-- Claim C7: when resolution reaches rule 3 — no exact registry entry for
`P`, no registered strict-subtype instance, but `P` has declared
subclasses — the implementer set is the registry-drawn strict subtypes
(empty here, as none are registered) followed by `P`'s declared non-abstract
subclasses not already listed; the first member is constructed through the
singleton construction wrapper, registered under its own concrete type, and
returned. -/
theorem C7_implementer_selection {U : ClassTable} {f p : Nat} {s : DIState}
    (hmiss : pyDictGet s.instances p = none)
    (hfind : find_subclass_instance U p s.instances = none)
    (hch : (U p).children ≠ []) :
    get_concrete_subclasses U p s.instances =
      (U p).children.foldl (fun acc cls =>
        if !(U cls).isAbstract && !acc.contains cls then acc ++ [cls]
        else acc) [] ∧
    ∀ c rest, get_concrete_subclasses U p s.instances = c :: rest →
      get_or_create_instance U (f + 1) p s =
        create_and_register_instance U (get_or_create_instance U f) c s ∧
      ∀ i s1,
        create_and_register_instance U (get_or_create_instance U f) c s =
          (.ok i, s1) →
        pyDictGet s1.instances c = some i ∧
        get_or_create_instance U (f + 1) p s = (.ok i, s1) := by
  refine ⟨concrete_of_find_none hfind, ?_⟩
  intro c rest hcs
  have hred : get_or_create_instance U (f + 1) p s =
      create_and_register_instance U (get_or_create_instance U f) c s := by
    unfold get_or_create_instance resolve_fallback
    rw [hmiss, hfind]
    cases hc : (U p).children with
    | nil => exact absurd hc hch
    | cons c0 cs0 => rw [hcs]
  refine ⟨hred, ?_⟩
  intro i s1 hcr
  exact ⟨create_and_register_registers hcr, by rw [hred, hcr]⟩

/-- Witness for C7 at `Usub`: resolving `Database` with empty registry
selects the declared concrete subclass `BQDatabase`, constructs it,
registers it under `BQDatabase` itself, and returns it. -/
theorem C7_implementer_selection_witness :
    get_concrete_subclasses Usub 0 [] = [1] ∧
    get_or_create_instance Usub 2 0 (DIState.mk [] 0 [] []) =
      create_and_register_instance Usub (get_or_create_instance Usub 1) 1
        (DIState.mk [] 0 [] []) ∧
    pyDictGet (DIState.mk [(1, 0)] 1 [(0, 1)] [(1, [])]).instances 1 =
      some 0 ∧
    get_or_create_instance Usub 2 0 (DIState.mk [] 0 [] []) =
      (.ok 0, DIState.mk [(1, 0)] 1 [(0, 1)] [(1, [])]) := by
  have hmain := C7_implementer_selection (U := Usub) (p := 0)
    (s := DIState.mk [] 0 [] []) (f := 1) rfl rfl
    (by simp [Usub, defaultPyClass])
  have hsel := hmain.2 1 [] rfl
  have hcr : create_and_register_instance Usub (get_or_create_instance Usub 1)
      1 (DIState.mk [] 0 [] []) =
      (.ok 0, DIState.mk [(1, 0)] 1 [(0, 1)] [(1, [])]) := by rfl
  have hfin := hsel.2 0 (DIState.mk [(1, 0)] 1 [(0, 1)] [(1, [])]) hcr
  exact ⟨rfl, hsel.1, hfin.1, hfin.2⟩

/-- Claim C8: `reset()` removes every registry entry and nothing else (so
references already held by callers are untouched), it is a no-op on a state
whose registry is already empty, and after a reset a successful
construction request for a decorated class `T` returns an instance distinct
from the one a pre-reset construction returned. -/
theorem C8_reset_isolation (U : ClassTable) :
    (∀ s : DIState, (reset s).instances = [] ∧ (reset s).nextId = s.nextId ∧
      (reset s).objClass = s.objClass ∧ (reset s).initLog = s.initLog) ∧
    (∀ s : DIState, s.instances = [] → reset s = s) ∧
    (∀ f g T i j : Nat, ∀ s s1 s2 : DIState,
      (U T).form = DecorForm.classDecorated →
      (∀ e, e ∈ s.instances → e.2 < s.nextId) →
      construct U f T [] [] s = (.ok i, s1) →
      construct U g T [] [] (reset s1) = (.ok j, s2) → j ≠ i) := by
  refine ⟨fun s => ⟨rfl, rfl, rfl, rfl⟩, ?_, ?_⟩
  · intro s hs
    cases s
    simp only [reset]
    simp_all
  · intro f g T i j s s1 s2 hform hbound h1 h2
    have h1' : call_class U (get_or_create_instance U f) T [] [] s =
        (.ok i, s1) := h1
    have hi_lt : i < s1.nextId := by
      rcases call_class_origin (get_or_create_resolverOK U f) h1' with
        hmem | ⟨_, hlt⟩
      · have hmem' : ∃ a, (a, i) ∈ s.instances := by
          simpa [registryValues] using hmem
        obtain ⟨a, hain⟩ := hmem'
        have hlt0 := hbound (a, i) hain
        have hmono := call_class_stepOK (get_or_create_resolverOK U f)
          T [] [] s
        rw [h1'] at hmono
        exact lt_of_lt_of_le hlt0 hmono.mono
      · exact hlt
    have hj : j = s1.nextId := by
      have h2' : call_class U (get_or_create_instance U g) T [] []
          (reset s1) = (.ok j, s2) := h2
      have hmiss2 : pyDictGet (reset s1).instances T = none := rfl
      have hj0 := call_class_decorated_miss_obj hform hmiss2 h2'
      exact hj0
    omega

/-- Witness for C8 at `U1`: constructing `A`, resetting, and constructing
again yields instance `1`, distinct from the pre-reset instance `0`. -/
theorem C8_reset_isolation_witness :
    ((U1 0).form = DecorForm.classDecorated ∧
      construct U1 1 0 [] [] (DIState.mk [] 0 [] []) =
        (.ok 0, DIState.mk [(0, 0)] 1 [(0, 0)] [(0, [])]) ∧
      construct U1 1 0 [] []
          (reset (DIState.mk [(0, 0)] 1 [(0, 0)] [(0, [])])) =
        (.ok 1, DIState.mk [(0, 1)] 2 [(0, 0), (1, 0)] [(0, []), (0, [])])) ∧
    (1 : Nat) ≠ 0 := by
  refine ⟨⟨rfl, rfl, rfl⟩, ?_⟩
  exact (C8_reset_isolation U1).2.2 1 1 0 0 1 (DIState.mk [] 0 [] [])
    (DIState.mk [(0, 0)] 1 [(0, 0)] [(0, [])])
    (DIState.mk [(0, 1)] 2 [(0, 0), (1, 0)] [(0, []), (0, [])])
    rfl (by intro e he; simp at he) rfl rfl

/-- Claim C9: whatever class the resolver manufactures an instance of —
decorated or not — `_create_and_register_instance` stores that instance in
the registry keyed by the instance's concrete class (first conjunct, with
no assumption on the decoration form); a later resolution of a type with a
registry entry returns the stored instance by the exact-hit rule, touching
nothing (second conjunct); and rule 5 routes a subclass-free unresolved
type into exactly that manufacture-and-register path (third conjunct). -/
theorem C9_registration_rules (U : ClassTable) :
    (∀ (f : Resolver) (cls : Nat) (s : DIState) (i : Nat) (s1 : DIState),
      create_and_register_instance U f cls s = (.ok i, s1) →
      pyDictGet s1.instances cls = some i) ∧
    (∀ (f cls i : Nat) (s : DIState), pyDictGet s.instances cls = some i →
      get_or_create_instance U (f + 1) cls s = (.ok i, s)) ∧
    (∀ (f p : Nat) (s : DIState), pyDictGet s.instances p = none →
      find_subclass_instance U p s.instances = none →
      (U p).children = [] →
      get_or_create_instance U (f + 1) p s =
        create_and_register_instance U (get_or_create_instance U f) p s) := by
  refine ⟨fun f cls s i s1 h => create_and_register_registers h, ?_, ?_⟩
  · intro f cls i s hget
    unfold get_or_create_instance
    rw [hget]
  · intro f p s hmiss hfind hch
    unfold get_or_create_instance resolve_fallback
    rw [hmiss, hfind, hch]

/-- Witness for C9 at `U9` (a plain, never-decorated class): manufacturing
registers it under its own class and the next resolution is an exact hit
returning the same stored instance. -/
theorem C9_registration_rules_witness :
    pyDictGet (DIState.mk [(0, 0)] 1 [(0, 0)] [(0, [])]).instances 0 =
      some 0 ∧
    get_or_create_instance U9 1 0 (DIState.mk [(0, 0)] 1 [(0, 0)] [(0, [])]) =
      (.ok 0, DIState.mk [(0, 0)] 1 [(0, 0)] [(0, [])]) ∧
    get_or_create_instance U9 1 0 (DIState.mk [] 0 [] []) =
      create_and_register_instance U9 (get_or_create_instance U9 0) 0
        (DIState.mk [] 0 [] []) := by
  refine ⟨?_, ?_, ?_⟩
  · exact (C9_registration_rules U9).1 (get_or_create_instance U9 0) 0
      (DIState.mk [] 0 [] []) 0 (DIState.mk [(0, 0)] 1 [(0, 0)] [(0, [])]) rfl
  · exact (C9_registration_rules U9).2.1 0 0 0
      (DIState.mk [(0, 0)] 1 [(0, 0)] [(0, [])]) rfl
  · exact (C9_registration_rules U9).2.2 0 0 (DIState.mk [] 0 [] [])
      rfl rfl rfl

/-- Claim C10: for a class whose `__init__` method (not the class) carries
the decorator, construction still injects dependencies through the same
resolver, but the class is no singleton and the constructed object is not
registered: two successful construction requests return distinct objects,
and the first object is nowhere among the registry's values afterwards. -/
theorem C10_method_form {U : ClassTable} {f g cls j1 j2 : Nat}
    {s s1 s2 : DIState} (hform : (U cls).form = DecorForm.initDecorated)
    (hbound : ∀ e, e ∈ s.instances → e.2 < s.nextId)
    (h1 : construct U f cls [] [] s = (.ok j1, s1))
    (h2 : construct U g cls [] [] s1 = (.ok j2, s2)) :
    j1 ≠ j2 ∧ j1 ∉ registryValues s1.instances := by
  have h1' : call_class U (get_or_create_instance U f) cls [] [] s =
      (.ok j1, s1) := h1
  have h2' : call_class U (get_or_create_instance U g) cls [] [] s1 =
      (.ok j2, s2) := h2
  have hj1 : j1 = s.nextId := call_class_init_obj hform h1'
  have hj2 : j2 = s1.nextId := call_class_init_obj hform h2'
  rw [call_class_init_decorated hform] at h1'
  split at h1'
  · rename_i obj sa heq1
    obtain ⟨ho, hn, hinst, _⟩ := object_new_ok heq1
    split at h1'
    · rename_i u s1' heq2
      simp only [Prod.mk.injEq, Except.ok.injEq] at h1'
      obtain ⟨hoj, hs1⟩ := h1'
      have hstep := inject_dependencies_stepOK (get_or_create_resolverOK U f)
        cls [] [] sa
      rw [heq2, hs1] at hstep
      constructor
      · have hlt : s.nextId < s1.nextId :=
          lt_of_lt_of_le (by simp [hn]) hstep.mono
        omega
      · intro hmem
        rcases hstep.vals j1 hmem with hold | ⟨hge, _⟩
        · rw [hinst] at hold
          have hold' : ∃ a, (a, j1) ∈ s.instances := by
            simpa [registryValues] using hold
          obtain ⟨a, hain⟩ := hold'
          have hlt0 := hbound (a, j1) hain
          rw [hj1] at hlt0
          exact lt_irrefl _ hlt0
        · rw [hn, hj1] at hge
          omega
    · simp at h1'
  · rename_i e sa heq1
    simp at h1'

/-- Witness for C10 at `U10`: two constructions of the method-form class
yield objects `0` and `1`, and object `0` is absent from the (empty)
registry. -/
theorem C10_method_form_witness :
    ((U10 0).form = DecorForm.initDecorated ∧
      construct U10 1 0 [] [] (DIState.mk [] 0 [] []) =
        (.ok 0, DIState.mk [] 1 [(0, 0)] [(0, [])]) ∧
      construct U10 1 0 [] [] (DIState.mk [] 1 [(0, 0)] [(0, [])]) =
        (.ok 1, DIState.mk [] 2 [(0, 0), (1, 0)] [(0, []), (0, [])])) ∧
    ((0 : Nat) ≠ 1 ∧
      0 ∉ registryValues (DIState.mk [] 1 [(0, 0)] [(0, [])]).instances) := by
  refine ⟨⟨rfl, rfl, rfl⟩, ?_⟩
  have h1 : construct U10 1 0 [] [] (DIState.mk [] 0 [] []) =
      (.ok 0, DIState.mk [] 1 [(0, 0)] [(0, [])]) := by rfl
  have h2 : construct U10 1 0 [] [] (DIState.mk [] 1 [(0, 0)] [(0, [])]) =
      (.ok 1, DIState.mk [] 2 [(0, 0), (1, 0)] [(0, []), (0, [])]) := by rfl
  exact C10_method_form rfl (by intro e he; simp at he) h1 h2
